import Mathlib

/-!
Shallow embedding of the prtool retrieval pipeline (github.com/willis7/prtool).

Go strings are modelled as `List Char` (`Str`), Go `time.Time` as an `Int`
count of seconds since the Unix epoch in UTC (sub-second precision is not
exercised by any code modelled here), and Go `nil` pointers as `Option`.
Go errors built with `fmt.Errorf` are modelled as inductive error types whose
constructors carry exactly the data the Go format string interpolates; each
constructor's doc comment quotes the Go message it stands for.
-/

abbrev Str := List Char

/-! ## Calendar arithmetic (model of Go `time.Time.AddDate` / `Add` in UTC)

Go's `AddDate(years, months, days)` re-builds the date with
`Date(year+years, month+months, day+days, ...)`, which first normalises the
month into `[January, December]` (rolling the year) and then resolves an
out-of-range day by plain day-count arithmetic on the proleptic Gregorian
calendar.  `daysFromCivil`/`civilFromDays` are the standard conversions
between a Gregorian civil date and a day number with day 0 = 1970-01-01. -/

def daysFromCivil (y m d : Int) : Int :=
  let y := if m ≤ 2 then y - 1 else y
  let era := Int.fdiv y 400
  let yoe := y - era * 400
  let mp := Int.emod (m + 9) 12
  let doy := Int.fdiv (153 * mp + 2) 5 + d - 1
  let doe := yoe * 365 + Int.fdiv yoe 4 - Int.fdiv yoe 100 + doy
  era * 146097 + doe - 719468

def civilFromDays (z : Int) : Int × Int × Int :=
  let z := z + 719468
  let era := Int.fdiv z 146097
  let doe := z - era * 146097
  let yoe := Int.fdiv (doe - Int.fdiv doe 1460 + Int.fdiv doe 36524 - Int.fdiv doe 146096) 365
  let y := yoe + era * 400
  let doy := doe - (365 * yoe + Int.fdiv yoe 4 - Int.fdiv yoe 100)
  let mp := Int.fdiv (5 * doy + 2) 153
  let d := doy - Int.fdiv (153 * mp + 2) 5 + 1
  let m := mp + (if mp < 10 then 3 else -9)
  (if m ≤ 2 then y + 1 else y, m, d)

/-- Model of Go `t.AddDate(years, months, days)`: split the instant into a
day number and a second-of-day, shift the civil date (months normalised into
the year first, then the day offset resolved by day-count arithmetic), and
re-attach the second-of-day. -/
def addDate (t : Int) (years months days : Int) : Int :=
  let day := Int.fdiv t 86400
  let sod := Int.emod t 86400
  let c := civilFromDays day
  let tm := 12 * c.1 + (c.2.1 - 1) + 12 * years + months
  let y2 := Int.fdiv tm 12
  let m2 := Int.emod tm 12 + 1
  (daysFromCivil y2 m2 1 + (c.2.2 - 1) + days) * 86400 + sod

namespace timeutil

/-! ## internal/timeutil/relative.go — `ParseRelativeDuration` -/

/-- Errors of `ParseRelativeDuration` (internal/timeutil/relative.go). -/
inductive ParseErr where
  /-- "duration string cannot be empty" -/
  | emptyInput : ParseErr
  /-- "duration must be negative (past time): %s" -/
  | mustBeNegative : Str → ParseErr
  /-- "invalid duration format: %s (expected format: -(number)(unit))" -/
  | invalidFormat : Str → ParseErr
  /-- "duration number must be positive: %d" -/
  | nonPositive : Nat → ParseErr
  /-- "unsupported time unit: %s (supported: d, w, m, y, h, min, s)" -/
  | unsupportedUnit : Str → ParseErr
deriving DecidableEq

/-- Model of Go `strconv.Atoi` on an all-digit string (64-bit overflow is not
modelled; magnitudes are unbounded). -/
def charsToNat (ds : Str) : Nat :=
  ds.foldl (fun a c => a * 10 + (c.toNat - 48)) 0

/-- Model of Go `strings.ToLower` on the ASCII letters admitted by the
format check. -/
def toLowerL (s : Str) : Str := s.map Char.toLower

def dayAliases : List Str := [['d'], ['d', 'a', 'y'], ['d', 'a', 'y', 's']]
def weekAliases : List Str := [['w'], ['w', 'e', 'e', 'k'], ['w', 'e', 'e', 'k', 's']]
def monthAliases : List Str := [['m'], ['m', 'o', 'n', 't', 'h'], ['m', 'o', 'n', 't', 'h', 's']]
def yearAliases : List Str := [['y'], ['y', 'r'], ['y', 'e', 'a', 'r'], ['y', 'e', 'a', 'r', 's']]
def hourAliases : List Str := [['h'], ['h', 'o', 'u', 'r'], ['h', 'o', 'u', 'r', 's']]
def minuteAliases : List Str := [['m', 'i', 'n'], ['m', 'i', 'n', 'u', 't', 'e'], ['m', 'i', 'n', 'u', 't', 'e', 's']]
def secondAliases : List Str :=
  [['s'], ['s', 'e', 'c'], ['s', 'e', 'c', 'o', 'n', 'd'], ['s', 'e', 'c', 'o', 'n', 'd', 's']]

/-- The `switch unit` statement of `ParseRelativeDuration`: calendar-aware
`AddDate` for days/weeks/months/years, fixed-duration `Add` for
hours/minutes/seconds (durations in seconds). -/
def dispatchUnit (unit : Str) (num : Nat) (now : Int) : Except ParseErr Int :=
  let n : Int := num
  if unit ∈ dayAliases then .ok (addDate now 0 0 (-n))
  else if unit ∈ weekAliases then .ok (addDate now 0 0 (-(n * 7)))
  else if unit ∈ monthAliases then .ok (addDate now 0 (-n) 0)
  else if unit ∈ yearAliases then .ok (addDate now (-n) 0 0)
  else if unit ∈ hourAliases then .ok (now - n * 3600)
  else if unit ∈ minuteAliases then .ok (now - n * 60)
  else if unit ∈ secondAliases then .ok (now - n)
  else .error (.unsupportedUnit unit)

/-- Body of `ParseRelativeDuration` after the leading '-' has been removed.
The Go regular expression match against `(digits)(letters)` anchored at both
ends is realised by splitting at the first non-digit and requiring a
non-empty digit run followed by a non-empty all-letter remainder. -/
def parseBody (rest : Str) (now : Int) : Except ParseErr Int :=
  let digits := rest.takeWhile Char.isDigit
  let unitCs := rest.dropWhile Char.isDigit
  if digits = [] ∨ unitCs = [] ∨ ¬ unitCs.all Char.isAlpha then
    .error (.invalidFormat ('-' :: rest))
  else
    let num := charsToNat digits
    if num = 0 then .error (.nonPositive num)
    else dispatchUnit (toLowerL unitCs) num now

/-- Model of `timeutil.ParseRelativeDuration` (internal/timeutil/relative.go
lines 14-67).  The Go function reads `time.Now()` internally; here `now` is
the value that call returns. -/
def ParseRelativeDuration (r : Str) (now : Int) : Except ParseErr Int :=
  match r with
  | [] => .error .emptyInput
  | c :: rest =>
    if c = '-' then parseBody rest now
    else .error (.mustBeNegative (c :: rest))

end timeutil

namespace config

/-! ## internal/config/config.go — `Config` and `MergeConfig` -/

/-- Model of `config.Config` (internal/config/config.go lines 13-37). -/
structure Config where
  Org : Str := []
  Team : Str := []
  User : Str := []
  Repo : Str := []
  Since : Str := []
  LLMProvider : Str := []
  LLMAPIKey : Str := []
  LLMModel : Str := []
  PromptFile : Str := []
  Output : Str := []
  CI : Bool := false
  DryRun : Bool := false
  Verbose : Bool := false
  GitHubToken : Str := []
deriving DecidableEq

/-- The Go zero value of `config.Config`. -/
def zeroConfig : Config := {}

/-- The environment-override block of `MergeConfig` (config.go lines 105-121):
each non-empty string field and each true boolean of `env` replaces the
merged value.  The Go block is a sequence of single-field assignments over
distinct fields, written here field by field. -/
def applyEnv (m e : Config) : Config where
  Org := if e.Org ≠ [] then e.Org else m.Org
  Team := if e.Team ≠ [] then e.Team else m.Team
  User := if e.User ≠ [] then e.User else m.User
  Repo := if e.Repo ≠ [] then e.Repo else m.Repo
  Since := if e.Since ≠ [] then e.Since else m.Since
  LLMProvider := if e.LLMProvider ≠ [] then e.LLMProvider else m.LLMProvider
  LLMAPIKey := if e.LLMAPIKey ≠ [] then e.LLMAPIKey else m.LLMAPIKey
  LLMModel := if e.LLMModel ≠ [] then e.LLMModel else m.LLMModel
  PromptFile := if e.PromptFile ≠ [] then e.PromptFile else m.PromptFile
  Output := if e.Output ≠ [] then e.Output else m.Output
  CI := if e.CI then e.CI else m.CI
  DryRun := if e.DryRun then e.DryRun else m.DryRun
  Verbose := if e.Verbose then e.Verbose else m.Verbose
  GitHubToken := if e.GitHubToken ≠ [] then e.GitHubToken else m.GitHubToken

/-- The CLI-override block of `MergeConfig` (config.go lines 124-139): string
fields override when non-empty, except `Since`, `LLMProvider` and `LLMModel`,
which override when different from their flag defaults `"-7d"`, `"openai"`
and `"gpt-3.5-turbo"`; booleans override when true.  Like the env block, a
sequence of single-field assignments, written field by field. -/
def applyCli (m c : Config) : Config where
  Org := if c.Org ≠ [] then c.Org else m.Org
  Team := if c.Team ≠ [] then c.Team else m.Team
  User := if c.User ≠ [] then c.User else m.User
  Repo := if c.Repo ≠ [] then c.Repo else m.Repo
  Since := if c.Since ≠ ['-', '7', 'd'] then c.Since else m.Since
  LLMProvider := if c.LLMProvider ≠ ['o', 'p', 'e', 'n', 'a', 'i'] then c.LLMProvider else m.LLMProvider
  LLMAPIKey := if c.LLMAPIKey ≠ [] then c.LLMAPIKey else m.LLMAPIKey
  LLMModel := if c.LLMModel ≠ ['g', 'p', 't', '-', '3', '.', '5', '-', 't', 'u', 'r', 'b', 'o'] then c.LLMModel else m.LLMModel
  PromptFile := if c.PromptFile ≠ [] then c.PromptFile else m.PromptFile
  Output := if c.Output ≠ [] then c.Output else m.Output
  CI := if c.CI then c.CI else m.CI
  DryRun := if c.DryRun then c.DryRun else m.DryRun
  Verbose := if c.Verbose then c.Verbose else m.Verbose
  GitHubToken := if c.GitHubToken ≠ [] then c.GitHubToken else m.GitHubToken

/-- Model of `config.MergeConfig` (config.go lines 96-142): start from the
YAML config, overlay the environment, overlay the CLI flags.  `none` models a
nil `*Config` argument. -/
def MergeConfig (cli env yaml : Option Config) : Config :=
  let merged := yaml.getD zeroConfig
  let merged := match env with
    | none => merged
    | some e => applyEnv merged e
  match cli with
  | none => merged
  | some c => applyCli merged c

end config

namespace configB

/-! ## src/unnamed/part_004 — the other iteration of the config package
(`Config`, `MergeConfig`, `firstNonEmpty`, `firstBool`). -/

/-- Model of the `Config` struct of src/unnamed/part_004. -/
structure Config where
  GitHubToken : Str := []
  Org : Str := []
  Team : Str := []
  User : Str := []
  Repo : Str := []
  Since : Str := []
  LLMProvider : Str := []
  LLMAPIKey : Str := []
  LLMModel : Str := []
  Prompt : Str := []
  Output : Str := []
  DryRun : Bool := false
  Verbose : Bool := false
  CI : Bool := false
  LogFile : Str := []
deriving DecidableEq

/-- `firstNonEmpty` (part_004): the first non-empty string, else `""`. -/
def firstNonEmpty : List Str → Str
  | [] => []
  | v :: vs => if v ≠ [] then v else firstNonEmpty vs

/-- `firstBool` (part_004 lines 151-159): the first true boolean, or the last
boolean if none is true. -/
def firstBool : List Bool → Bool
  | [] => false
  | [v] => v
  | v :: vs => if v then v else firstBool vs

/-- `MergeConfig` of part_004 lines 98-149: every string field merges with
`firstNonEmpty(cli, env, yaml)`, every boolean with
`firstBool(cli, env, yaml)`; nil arguments are replaced by the zero config. -/
def MergeConfig (cliConfig envConfig yamlConfig : Option Config) : Config :=
  let cli := cliConfig.getD {}
  let env := envConfig.getD {}
  let yaml := yamlConfig.getD {}
  { GitHubToken := firstNonEmpty [cli.GitHubToken, env.GitHubToken, yaml.GitHubToken]
    Org := firstNonEmpty [cli.Org, env.Org, yaml.Org]
    Team := firstNonEmpty [cli.Team, env.Team, yaml.Team]
    User := firstNonEmpty [cli.User, env.User, yaml.User]
    Repo := firstNonEmpty [cli.Repo, env.Repo, yaml.Repo]
    Since := firstNonEmpty [cli.Since, env.Since, yaml.Since]
    LLMProvider := firstNonEmpty [cli.LLMProvider, env.LLMProvider, yaml.LLMProvider]
    LLMAPIKey := firstNonEmpty [cli.LLMAPIKey, env.LLMAPIKey, yaml.LLMAPIKey]
    LLMModel := firstNonEmpty [cli.LLMModel, env.LLMModel, yaml.LLMModel]
    Prompt := firstNonEmpty [cli.Prompt, env.Prompt, yaml.Prompt]
    Output := firstNonEmpty [cli.Output, env.Output, yaml.Output]
    DryRun := firstBool [cli.DryRun, env.DryRun, yaml.DryRun]
    Verbose := firstBool [cli.Verbose, env.Verbose, yaml.Verbose]
    CI := firstBool [cli.CI, env.CI, yaml.CI]
    LogFile := firstNonEmpty [cli.LogFile, env.LogFile, yaml.LogFile] }

end configB

namespace model

/-! ## internal/model/pr.go — `model.PR` -/

/-- Model of `model.PR` (internal/model/pr.go).  `MergedAt` is a
`*time.Time` in Go: absence is first-class. -/
structure PR where
  Title : Str := []
  Body : Str := []
  Author : Str := []
  CreatedAt : Int := 0
  MergedAt : Option Int := none
  Labels : List Str := []
  FilePaths : List Str := []
  HTMLURL : Str := []
  Number : Int := 0
  Repository : Str := []
  State : Str := []
deriving DecidableEq

end model

namespace gh

/-! ## internal/gh/client.go — the GitHub REST client

The upstream HTTP API is a collaborator: each paginating method takes the
list of successive page responses the API would return for its query (the Go
loop issues one request per iteration and stops when `resp.NextPage == 0`,
i.e. when the response list is exhausted; an `Except.error` entry models a
failed request). -/

/-- Subset of `github.Repository` used by the code: `FullName`, `Owner.Login`
and `Name` pointer fields. -/
structure Repository where
  FullName : Option Str := none
  OwnerLogin : Option Str := none
  Name : Option Str := none
deriving DecidableEq

/-- Subset of `github.PullRequest` used by `convertToModelPR`. -/
structure GhPR where
  Title : Option Str := none
  Body : Option Str := none
  UserLogin : Option Str := none
  CreatedAt : Option Int := none
  MergedAt : Option Int := none
  HTMLURL : Option Str := none
  Number : Option Int := none
  State : Option Str := none
  Labels : List (Option Str) := []
deriving DecidableEq

/-- Errors of the gh package (client.go, lines 152-384 iteration). -/
inductive GhErr where
  /-- "GitHub token is required" -/
  | tokenRequired
  /-- "GitHub authentication failed: %w" -/
  | authFailed (e : Str)
  /-- "repository name is required" -/
  | repoNameRequired
  /-- "repository must be in format 'owner/repo'" -/
  | repoFormatInvalid
  /-- "failed to list pull requests for %s: %w" -/
  | listPRsFailed (repo : Str) (e : Str)
  /-- "team must be in format 'org/team'" -/
  | teamFormatInvalid
  /-- "failed to list repositories for team %s: %w" -/
  | listTeamReposFailed (team : Str) (e : Str)
deriving DecidableEq

/-- Model of Go `strings.Split(s, sep)` for a one-character separator:
every occurrence splits, empty pieces are kept, the result is never empty. -/
def splitOnChar (sep : Char) : Str → List Str
  | [] => [[]]
  | c :: rest =>
    match splitOnChar sep rest with
    | [] => if c = sep then [[], []] else [[c]]
    | p :: ps => if c = sep then [] :: p :: ps else (c :: p) :: ps

/-- `safeString` (client.go): nil pointer becomes `""`. -/
def safeString : Option Str → Str
  | none => []
  | some s => s

/-- `safeInt` (client.go): nil pointer becomes `0`. -/
def safeInt : Option Int → Int
  | none => 0
  | some i => i

/-- The zero `time.Time` (0001-01-01T00:00:00Z) in seconds since the Unix
epoch. -/
def goZeroTime : Int := -62135596800

/-- `safeTimestamp` (client.go): nil `*github.Timestamp` becomes the zero
`time.Time`. -/
def safeTimestamp : Option Int → Int
  | none => goZeroTime
  | some t => t

/-- `safeTimestampPtr` (client.go): nil stays nil, otherwise the pointed-to
time is copied. -/
def safeTimestampPtr : Option Int → Option Int
  | none => none
  | some t => some t

/-- `convertToModelPR` (client.go lines 329-353): dereference each pointer
field through the safe helpers, keep only the non-nil label names, leave
`FilePaths` empty. -/
def convertToModelPR (pr : GhPR) (repo : Str) : model.PR :=
  { Title := safeString pr.Title
    Body := safeString pr.Body
    Author := safeString pr.UserLogin
    CreatedAt := safeTimestamp pr.CreatedAt
    MergedAt := safeTimestampPtr pr.MergedAt
    HTMLURL := safeString pr.HTMLURL
    Number := safeInt pr.Number
    Repository := repo
    State := safeString pr.State
    Labels := pr.Labels.filterMap id
    FilePaths := [] }

/-- The pagination loop of `ListPRs` (client.go lines 215-233): on each page,
keep the pull requests with a non-nil `MergedAt` strictly after `since`
(`pr.MergedAt.After(since)`), converted to the model type; a failed page
request aborts with the wrapped error. -/
def collectPRPages (repo : Str) (since : Int) :
    List (Except Str (List GhPR)) → List model.PR → Except GhErr (List model.PR)
  | [], acc => .ok acc
  | .error e :: _, _ => .error (.listPRsFailed repo e)
  | .ok prs :: rest, acc =>
    collectPRPages repo since rest
      (acc ++ prs.filterMap (fun pr =>
        match pr.MergedAt with
        | some m => if since < m then some (convertToModelPR pr repo) else none
        | none => none))

/-- Model of `RestClient.ListPRs` (client.go lines 193-236).  The query sent
upstream asks for `State: "closed", Sort: "updated"`; `pages` is the
sequence of responses the upstream returns for that closed-state query. -/
def ListPRs (repo : Str) (since : Int)
    (pages : List (Except Str (List GhPR))) : Except GhErr (List model.PR) :=
  if repo = [] then .error .repoNameRequired
  else if (splitOnChar '/' repo).length ≠ 2 then .error .repoFormatInvalid
  else collectPRPages repo since pages []

/-- The pagination loop of `listTeamRepos` (client.go lines 310-323):
pages are appended wholesale into `allRepos`. -/
def collectRepoPages (team : Str) :
    List (Except Str (List Repository)) → List Repository → Except GhErr (List Repository)
  | [], acc => .ok acc
  | .error e :: _, _ => .error (.listTeamReposFailed team e)
  | .ok rs :: rest, acc => collectRepoPages team rest (acc ++ rs)

/-- Model of `RestClient.listTeamRepos` (client.go lines 300-326): the single
`team` string must split on "/" into exactly two parts (`org`, `teamSlug`);
`pages` is the sequence of `ListTeamReposBySlug` responses for that one
team. -/
def listTeamRepos (team : Str)
    (pages : List (Except Str (List Repository))) : Except GhErr (List Repository) :=
  if (splitOnChar '/' team).length ≠ 2 then .error .teamFormatInvalid
  else collectRepoPages team pages []

/-- The constructed client state. -/
structure RestClient where
  token : Str
deriving DecidableEq

/-- Model of `NewRestClient` (client.go lines 152-170).  `usersGet` is the
outcome the authentication probe (`client.Users.Get(ctx, "")` — the only
network call in the constructor) would produce; the returned `Bool` records
whether that probe was actually issued. -/
def NewRestClient (token : Str) (usersGet : Except Str Unit) :
    Except GhErr RestClient × Bool :=
  if token = [] then (.error .tokenRequired, false)
  else
    match usersGet with
    | .error e => (.error (.authFailed e), true)
    | .ok _ => (.ok ⟨token⟩, true)

end gh

namespace scope

/-! ## internal/scope/scope.go — `ValidateScope` and `ResolveRepos`
(the iteration at lines 1-109 of the file, the one with the scope count,
the scopes list and the empty-result check). -/

/-- The four scope selectors. -/
inductive ScopeName where
  | org
  | team
  | user
  | repo
deriving DecidableEq

/-- Whether a given scope selector is set in the configuration
(`cfg.Org != ""`, `len(cfg.Team) > 0`, `cfg.User != ""`, `cfg.Repo != ""`). -/
def scopeSet (c : config.Config) : ScopeName → Prop
  | .org => c.Org ≠ []
  | .team => c.Team ≠ []
  | .user => c.User ≠ []
  | .repo => c.Repo ≠ []

instance (c : config.Config) (s : ScopeName) : Decidable (scopeSet c s) := by
  cases s <;> simp [scopeSet] <;> infer_instance

/-- The `scopes` slice built by `ValidateScope` (scope.go lines 80-98): the
names of the set selectors, in declaration order.  Its length is the
`scopeCount` both functions compute. -/
def scopesOf (c : config.Config) : List ScopeName :=
  (if c.Org ≠ [] then [ScopeName.org] else []) ++
  (if c.Team ≠ [] then [ScopeName.team] else []) ++
  (if c.User ≠ [] then [ScopeName.user] else []) ++
  (if c.Repo ≠ [] then [ScopeName.repo] else [])

/-- The `scopeType` variable of `ResolveRepos` (scope.go lines 22-40): each
`if` overwrites it, so the last set selector in declaration order wins;
`none` models the never-assigned empty string. -/
def scopeTypeOf (c : config.Config) : Option ScopeName :=
  let t : Option ScopeName := none
  let t := if c.Org ≠ [] then some ScopeName.org else t
  let t := if c.Team ≠ [] then some ScopeName.team else t
  let t := if c.User ≠ [] then some ScopeName.user else t
  if c.Repo ≠ [] then some ScopeName.repo else t

/-- Errors of the scope package. -/
inductive ScopeErr where
  /-- "configuration is required" -/
  | configurationRequired
  /-- "no scope specified: exactly one of org, team, user, or repo must be provided" -/
  | noScopeSpecified
  /-- "multiple scopes specified: %v (only one allowed)" — the `ValidateScope`
  message interpolates the `scopes` slice, naming the set selectors. -/
  | multipleScopesSpecified (scopes : List ScopeName)
  /-- "multiple scopes specified: only one of org, team, user, or repo is
  allowed" — the `ResolveRepos` variant of the message. -/
  | multipleScopesOnlyOne
  /-- "failed to list repositories for %s: %w" -/
  | listReposFailed (scopeType : Option ScopeName) (e : Str)
  /-- "no repositories found for %s scope" -/
  | noRepositoriesFound (scopeType : Option ScopeName)
deriving DecidableEq

/-- Model of `scope.ValidateScope` (scope.go lines 75-109). -/
def ValidateScope (cfg : Option config.Config) : Except ScopeErr Unit :=
  match cfg with
  | none => .error .configurationRequired
  | some c =>
    let scopes := scopesOf c
    if scopes.length = 0 then .error .noScopeSpecified
    else if 1 < scopes.length then .error (.multipleScopesSpecified scopes)
    else .ok ()

/-- The repository-name extraction of `ResolveRepos` (scope.go lines 57-65):
prefer `FullName`, fall back to `Owner.Login + "/" + Name`, skip repositories
providing neither. -/
def repoNameOf (r : gh.Repository) : Option Str :=
  match r.FullName with
  | some fn => some fn
  | none =>
    match r.OwnerLogin, r.Name with
    | some l, some n => some (l ++ '/' :: n)
    | _, _ => none

/-- Model of `scope.ResolveRepos` (scope.go lines 12-72).  `listRepos` is the
`GitHubClient.ListRepos` collaborator (the Go nil-client guard has no
counterpart: a Lean function argument is always present).  A successful
listing that extracts zero repository names is the distinct
"no repositories found" error. -/
def ResolveRepos (cfg : Option config.Config)
    (listRepos : config.Config → Except Str (List gh.Repository)) :
    Except ScopeErr (List Str) :=
  match cfg with
  | none => .error .configurationRequired
  | some c =>
    let n := (scopesOf c).length
    if n = 0 then .error .noScopeSpecified
    else if 1 < n then .error .multipleScopesOnlyOne
    else
      match listRepos c with
      | .error e => .error (.listReposFailed (scopeTypeOf c) e)
      | .ok repos =>
        let repoNames := repos.filterMap repoNameOf
        if repoNames = [] then .error (.noRepositoriesFound (scopeTypeOf c))
        else .ok repoNames

end scope

namespace cmd

/-! ## cmd/root.go — `validateConfig` (lines 252-263) -/

/-- Errors surfaced by `validateConfig`. -/
inductive CmdErr where
  /-- "GitHub token is required" -/
  | gitHubTokenRequired
  /-- a scope validation error, returned unchanged -/
  | scopeInvalid (e : scope.ScopeErr)
deriving DecidableEq

/-- Model of `validateConfig` (cmd/root.go lines 252-263): the token check
runs first, before scope validation and before any client is built. -/
def validateConfig (cfg : config.Config) : Except CmdErr Unit :=
  if cfg.GitHubToken = [] then .error .gitHubTokenRequired
  else
    match scope.ValidateScope (some cfg) with
    | .error e => .error (.scopeInvalid e)
    | .ok _ => .ok ()

end cmd

namespace service

/-! ## internal/service/fetcher.go — `Fetcher.Fetch` (lines 31-57) -/

/-- Fatal errors of `Fetcher.Fetch`. -/
inductive FetchErr where
  /-- "failed to resolve repositories: %w" -/
  | resolveFailed (e : scope.ScopeErr)
  /-- "failed to parse 'since' duration: %w" -/
  | parseSinceFailed (e : timeutil.ParseErr)
deriving DecidableEq

/-- Model of `Fetcher.Fetch` (fetcher.go lines 31-57).  `listRepos` and
`listPRs` are the two methods of the injected `GitHubClient`; `now` is the
instant the 'since' expression is resolved against.  The second component
collects the per-repository warnings the Go code prints
("Warning: Failed to fetch PRs for %s: %v") before continuing with the
remaining repositories. -/
def Fetch (cfg : config.Config)
    (listRepos : config.Config → Except Str (List gh.Repository))
    (listPRs : Str → Int → Except Str (List model.PR))
    (now : Int) : Except FetchErr (List model.PR) × List (Str × Str) :=
  match scope.ResolveRepos (some cfg) listRepos with
  | .error e => (.error (.resolveFailed e), [])
  | .ok repoNames =>
    match timeutil.ParseRelativeDuration cfg.Since now with
    | .error e => (.error (.parseSinceFailed e), [])
    | .ok sinceTime =>
      let r := repoNames.foldl
        (fun acc repoName =>
          match listPRs repoName sinceTime with
          | .error err => (acc.1, acc.2 ++ [(repoName, err)])
          | .ok prs => (acc.1 ++ prs, acc.2))
        ([], [])
      (.ok r.1, r.2)

end service

/-! ## Verified properties -/

theorem firstNonEmpty_three (a b c : Str) :
    configB.firstNonEmpty [a, b, c]
      = if a ≠ [] then a else if b ≠ [] then b else c := by
  by_cases ha : a = [] <;> by_cases hb : b = [] <;> by_cases hc : c = [] <;>
    simp [configB.firstNonEmpty, ha, hb, hc]

theorem firstBool_three (a b c : Bool) :
    configB.firstBool [a, b, c] = (a || b || c) := by
  cases a <;> cases b <;> cases c <;> rfl

theorem ifBoolOr (a b c : Bool) :
    (if a then a else if b then b else c) = (a || b || c) := by
  cases a <;> cases b <;> cases c <;> rfl

/-- C3: in both iterations of `MergeConfig`, each string field is merged by
an independent cli-over-env-over-file cascade in which "present" means
non-empty; in particular `Org` merges to the cli value when non-empty, else
the env value when non-empty, else the file value, and the three concrete
`Org` examples `"a"`/`"b"`/`"c"` resolve accordingly. -/
theorem mergeConfig_precedence (cli env yaml : config.Config)
    (cliB envB yamlB : configB.Config) :
    ((config.MergeConfig (some cli) (some env) (some yaml)).Org
        = (if cli.Org ≠ [] then cli.Org else if env.Org ≠ [] then env.Org else yaml.Org)
      ∧ (config.MergeConfig (some cli) (some env) (some yaml)).Team
        = (if cli.Team ≠ [] then cli.Team else if env.Team ≠ [] then env.Team else yaml.Team)
      ∧ (config.MergeConfig (some cli) (some env) (some yaml)).User
        = (if cli.User ≠ [] then cli.User else if env.User ≠ [] then env.User else yaml.User)
      ∧ (config.MergeConfig (some cli) (some env) (some yaml)).Repo
        = (if cli.Repo ≠ [] then cli.Repo else if env.Repo ≠ [] then env.Repo else yaml.Repo)
      ∧ (config.MergeConfig (some cli) (some env) (some yaml)).LLMAPIKey
        = (if cli.LLMAPIKey ≠ [] then cli.LLMAPIKey else if env.LLMAPIKey ≠ [] then env.LLMAPIKey else yaml.LLMAPIKey)
      ∧ (config.MergeConfig (some cli) (some env) (some yaml)).PromptFile
        = (if cli.PromptFile ≠ [] then cli.PromptFile else if env.PromptFile ≠ [] then env.PromptFile else yaml.PromptFile)
      ∧ (config.MergeConfig (some cli) (some env) (some yaml)).Output
        = (if cli.Output ≠ [] then cli.Output else if env.Output ≠ [] then env.Output else yaml.Output)
      ∧ (config.MergeConfig (some cli) (some env) (some yaml)).GitHubToken
        = (if cli.GitHubToken ≠ [] then cli.GitHubToken else if env.GitHubToken ≠ [] then env.GitHubToken else yaml.GitHubToken))
    ∧ ((configB.MergeConfig (some cliB) (some envB) (some yamlB)).Org
        = (if cliB.Org ≠ [] then cliB.Org else if envB.Org ≠ [] then envB.Org else yamlB.Org)
      ∧ (configB.MergeConfig (some cliB) (some envB) (some yamlB)).Team
        = (if cliB.Team ≠ [] then cliB.Team else if envB.Team ≠ [] then envB.Team else yamlB.Team)
      ∧ (configB.MergeConfig (some cliB) (some envB) (some yamlB)).User
        = (if cliB.User ≠ [] then cliB.User else if envB.User ≠ [] then envB.User else yamlB.User)
      ∧ (configB.MergeConfig (some cliB) (some envB) (some yamlB)).Repo
        = (if cliB.Repo ≠ [] then cliB.Repo else if envB.Repo ≠ [] then envB.Repo else yamlB.Repo)
      ∧ (configB.MergeConfig (some cliB) (some envB) (some yamlB)).Since
        = (if cliB.Since ≠ [] then cliB.Since else if envB.Since ≠ [] then envB.Since else yamlB.Since)
      ∧ (configB.MergeConfig (some cliB) (some envB) (some yamlB)).LLMProvider
        = (if cliB.LLMProvider ≠ [] then cliB.LLMProvider else if envB.LLMProvider ≠ [] then envB.LLMProvider else yamlB.LLMProvider)
      ∧ (configB.MergeConfig (some cliB) (some envB) (some yamlB)).LLMAPIKey
        = (if cliB.LLMAPIKey ≠ [] then cliB.LLMAPIKey else if envB.LLMAPIKey ≠ [] then envB.LLMAPIKey else yamlB.LLMAPIKey)
      ∧ (configB.MergeConfig (some cliB) (some envB) (some yamlB)).LLMModel
        = (if cliB.LLMModel ≠ [] then cliB.LLMModel else if envB.LLMModel ≠ [] then envB.LLMModel else yamlB.LLMModel)
      ∧ (configB.MergeConfig (some cliB) (some envB) (some yamlB)).GitHubToken
        = (if cliB.GitHubToken ≠ [] then cliB.GitHubToken else if envB.GitHubToken ≠ [] then envB.GitHubToken else yamlB.GitHubToken))
    ∧ (config.MergeConfig (some { Org := ['a'] }) (some { Org := ['b'] }) (some { Org := ['c'] })).Org = ['a']
    ∧ (config.MergeConfig (some {}) (some { Org := ['b'] }) (some { Org := ['c'] })).Org = ['b']
    ∧ (config.MergeConfig (some {}) (some {}) (some { Org := ['c'] })).Org = ['c'] := by
  refine ⟨⟨rfl, rfl, rfl, rfl, rfl, rfl, rfl, rfl⟩, ?_, by decide, by decide, by decide⟩
  simp [configB.MergeConfig, firstNonEmpty_three]

/-- C10: in `config.MergeConfig` a cli value equal to the flag default
(`""` for plain string fields such as `Org`, `"-7d"` for `Since`, `"openai"`
for `LLMProvider`, `"gpt-3.5-turbo"` for `LLMModel`, `false` for booleans) is
treated as absent and falls through to env/file, and every boolean field
merges as the logical OR of the three sources in both iterations, so an
explicit cli `false` can never turn off a `true` from env or file. -/
theorem mergeConfig_default_sentinels (cli env yaml : config.Config)
    (cliB envB yamlB : configB.Config) :
    ((config.MergeConfig (some cli) (some env) (some yaml)).Since
        = (if cli.Since ≠ ['-', '7', 'd'] then cli.Since
           else if env.Since ≠ [] then env.Since else yaml.Since)
      ∧ (config.MergeConfig (some cli) (some env) (some yaml)).LLMProvider
        = (if cli.LLMProvider ≠ ['o', 'p', 'e', 'n', 'a', 'i'] then cli.LLMProvider
           else if env.LLMProvider ≠ [] then env.LLMProvider else yaml.LLMProvider)
      ∧ (config.MergeConfig (some cli) (some env) (some yaml)).LLMModel
        = (if cli.LLMModel ≠ ['g', 'p', 't', '-', '3', '.', '5', '-', 't', 'u', 'r', 'b', 'o'] then cli.LLMModel
           else if env.LLMModel ≠ [] then env.LLMModel else yaml.LLMModel)
      ∧ (config.MergeConfig (some cli) (some env) (some yaml)).Org
        = (if cli.Org ≠ [] then cli.Org else if env.Org ≠ [] then env.Org else yaml.Org))
    ∧ ((config.MergeConfig (some cli) (some env) (some yaml)).CI = (cli.CI || env.CI || yaml.CI)
      ∧ (config.MergeConfig (some cli) (some env) (some yaml)).DryRun = (cli.DryRun || env.DryRun || yaml.DryRun)
      ∧ (config.MergeConfig (some cli) (some env) (some yaml)).Verbose = (cli.Verbose || env.Verbose || yaml.Verbose))
    ∧ ((configB.MergeConfig (some cliB) (some envB) (some yamlB)).CI = (cliB.CI || envB.CI || yamlB.CI)
      ∧ (configB.MergeConfig (some cliB) (some envB) (some yamlB)).DryRun = (cliB.DryRun || envB.DryRun || yamlB.DryRun)
      ∧ (configB.MergeConfig (some cliB) (some envB) (some yamlB)).Verbose = (cliB.Verbose || envB.Verbose || yamlB.Verbose)) := by
  refine ⟨⟨rfl, rfl, rfl, rfl⟩, ⟨?_, ?_, ?_⟩, ⟨?_, ?_, ?_⟩⟩
  · exact ifBoolOr cli.CI env.CI yaml.CI
  · exact ifBoolOr cli.DryRun env.DryRun yaml.DryRun
  · exact ifBoolOr cli.Verbose env.Verbose yaml.Verbose
  · simpa only [configB.MergeConfig, Option.getD_some] using firstBool_three cliB.CI envB.CI yamlB.CI
  · simpa only [configB.MergeConfig, Option.getD_some] using firstBool_three cliB.DryRun envB.DryRun yamlB.DryRun
  · simpa only [configB.MergeConfig, Option.getD_some] using firstBool_three cliB.Verbose envB.Verbose yamlB.Verbose

/-- A repository two teams would share, for exercising deduplication. -/
def sharedRepo : gh.Repository := { FullName := some ['o', '/', 's'] }

/-- C5: the team scope of client.go supports exactly one `org/team` string: a
configuration naming two teams (comma-separated, as the project changelog
documents) is rejected by the format check rather than enumerated, and even
the repository pages that are fetched are concatenated wholesale, so a
repository reported twice stays duplicated — no deduplication by canonical
owner/name happens before returning. -/
theorem listTeamRepos_no_multi_team_dedup :
    (∀ pages, gh.listTeamRepos ['o', 'r', 'g', '/', 'a', ',', 'o', 'r', 'g', '/', 'b'] pages
        = .error .teamFormatInvalid)
    ∧ gh.listTeamRepos ['o', 'r', 'g', '/', 't'] [.ok [sharedRepo], .ok [sharedRepo]]
        = .ok [sharedRepo, sharedRepo] := by
  constructor
  · intro pages
    rfl
  · rfl

/-- C9: an empty credential token is rejected before any network call:
`validateConfig` fails on the missing token before a client is ever built,
and `NewRestClient` with an empty token returns its error without issuing
the authentication probe (the `Bool` component stays `false`), for every
outcome the probe would have had. -/
theorem emptyToken_rejected_before_network (usersGet : Except Str Unit)
    (cfg : config.Config) (h : cfg.GitHubToken = []) :
    gh.NewRestClient [] usersGet = (.error .tokenRequired, false)
    ∧ cmd.validateConfig cfg = .error .gitHubTokenRequired := by
  constructor
  · rfl
  · simp [cmd.validateConfig, h]

theorem emptyToken_rejected_before_network_witness :
    gh.NewRestClient [] (.ok ()) = (.error .tokenRequired, false)
    ∧ cmd.validateConfig {} = .error .gitHubTokenRequired :=
  emptyToken_rejected_before_network (.ok ()) {} rfl

/-- C8: when exactly one scope is set and the repository listing succeeds
with zero repositories, `ResolveRepos` returns the dedicated
"no repositories found" error for that scope — not a successful empty
result, and an error distinct from the wrapped transport error. -/
theorem resolveRepos_empty_is_noRepositoriesFound (c : config.Config)
    (client : config.Config → Except Str (List gh.Repository))
    (h1 : (scope.scopesOf c).length = 1) (h2 : client c = .ok []) :
    scope.ResolveRepos (some c) client
        = .error (.noRepositoriesFound (scope.scopeTypeOf c))
    ∧ (∀ names, scope.ResolveRepos (some c) client ≠ .ok names)
    ∧ (∀ t e, scope.ScopeErr.noRepositoriesFound (scope.scopeTypeOf c)
        ≠ .listReposFailed t e) := by
  have key : scope.ResolveRepos (some c) client
      = .error (.noRepositoriesFound (scope.scopeTypeOf c)) := by
    simp [scope.ResolveRepos, h1, h2]
  refine ⟨key, ?_, ?_⟩
  · intro names hcontra
    rw [key] at hcontra
    exact absurd hcontra (by simp)
  · intro t e hcontra
    exact absurd hcontra (by simp)

theorem resolveRepos_empty_is_noRepositoriesFound_witness :
    scope.ResolveRepos (some { Org := ['a'] }) (fun _ => .ok [])
        = .error (.noRepositoriesFound (scope.scopeTypeOf { Org := ['a'] }))
    ∧ (∀ names, scope.ResolveRepos (some { Org := ['a'] }) (fun _ => .ok []) ≠ .ok names)
    ∧ (∀ t e, scope.ScopeErr.noRepositoriesFound (scope.scopeTypeOf { Org := ['a'] })
        ≠ .listReposFailed t e) :=
  resolveRepos_empty_is_noRepositoriesFound { Org := ['a'] } (fun _ => .ok [])
    (by decide) rfl

theorem mem_scopesOf (c : config.Config) (s : scope.ScopeName) :
    s ∈ scope.scopesOf c ↔ scope.scopeSet c s := by
  cases s <;>
    by_cases h1 : c.Org = [] <;> by_cases h2 : c.Team = [] <;>
    by_cases h3 : c.User = [] <;> by_cases h4 : c.Repo = [] <;>
    simp [scope.scopesOf, scope.scopeSet, h1, h2, h3, h4]

theorem validateScope_none_set (c : config.Config)
    (h : ∀ s, ¬ scope.scopeSet c s) :
    scope.ValidateScope (some c) = .error .noScopeSpecified := by
  have h1 := h .org
  have h2 := h .team
  have h3 := h .user
  have h4 := h .repo
  simp [scope.scopeSet] at h1 h2 h3 h4
  simp [scope.ValidateScope, scope.scopesOf, h1, h2, h3, h4]

theorem validateScope_two_set (c : config.Config) (s1 s2 : scope.ScopeName)
    (hne : s1 ≠ s2) (hs1 : scope.scopeSet c s1) (hs2 : scope.scopeSet c s2) :
    scope.ValidateScope (some c)
      = .error (.multipleScopesSpecified (scope.scopesOf c)) := by
  have hlen : 1 < (scope.scopesOf c).length := by
    cases s1 <;> cases s2 <;> simp [scope.scopeSet] at hs1 hs2 <;>
      first
        | exact absurd rfl hne
        | ((simp [scope.scopesOf, hs1, hs2, List.length_append]) <;> omega)
  have h0 : ¬ (scope.scopesOf c).length = 0 := by omega
  simp [scope.ValidateScope, h0, hlen]

theorem validateScope_one_set (c : config.Config) (s : scope.ScopeName)
    (hs : scope.scopeSet c s) (huniq : ∀ s2, scope.scopeSet c s2 → s2 = s) :
    scope.ValidateScope (some c) = .ok ()
    ∧ scope.scopeTypeOf c = some s ∧ scope.scopesOf c = [s] := by
  cases s
  case org =>
    simp only [scope.scopeSet] at hs
    have ht : c.Team = [] := by
      by_contra h
      exact absurd (huniq .team h) (by decide)
    have hu : c.User = [] := by
      by_contra h
      exact absurd (huniq .user h) (by decide)
    have hr : c.Repo = [] := by
      by_contra h
      exact absurd (huniq .repo h) (by decide)
    simp [scope.ValidateScope, scope.scopesOf, scope.scopeTypeOf, hs, ht, hu, hr]
  case team =>
    simp only [scope.scopeSet] at hs
    have ho : c.Org = [] := by
      by_contra h
      exact absurd (huniq .org h) (by decide)
    have hu : c.User = [] := by
      by_contra h
      exact absurd (huniq .user h) (by decide)
    have hr : c.Repo = [] := by
      by_contra h
      exact absurd (huniq .repo h) (by decide)
    simp [scope.ValidateScope, scope.scopesOf, scope.scopeTypeOf, hs, ho, hu, hr]
  case user =>
    simp only [scope.scopeSet] at hs
    have ho : c.Org = [] := by
      by_contra h
      exact absurd (huniq .org h) (by decide)
    have ht : c.Team = [] := by
      by_contra h
      exact absurd (huniq .team h) (by decide)
    have hr : c.Repo = [] := by
      by_contra h
      exact absurd (huniq .repo h) (by decide)
    simp [scope.ValidateScope, scope.scopesOf, scope.scopeTypeOf, hs, ho, ht, hr]
  case repo =>
    simp only [scope.scopeSet] at hs
    have ho : c.Org = [] := by
      by_contra h
      exact absurd (huniq .org h) (by decide)
    have ht : c.Team = [] := by
      by_contra h
      exact absurd (huniq .team h) (by decide)
    have hu : c.User = [] := by
      by_contra h
      exact absurd (huniq .user h) (by decide)
    simp [scope.ValidateScope, scope.scopesOf, scope.scopeTypeOf, hs, ho, ht, hu]

/-- C4: scope validation fails with the no-scope error when none of
org/team/user/repo is set, fails with the multiple-scopes error carrying the
list of exactly the set selectors when two distinct ones are set, and
succeeds when exactly one is set, with both the `scopes` list and the
`scopeType` selection naming that one scope. -/
theorem validateScope_trichotomy (c : config.Config) :
    ((∀ s, ¬ scope.scopeSet c s) →
        scope.ValidateScope (some c) = .error .noScopeSpecified)
    ∧ (∀ s1 s2, s1 ≠ s2 → scope.scopeSet c s1 → scope.scopeSet c s2 →
        scope.ValidateScope (some c)
            = .error (.multipleScopesSpecified (scope.scopesOf c))
        ∧ (∀ s, s ∈ scope.scopesOf c ↔ scope.scopeSet c s))
    ∧ (∀ s, scope.scopeSet c s → (∀ s2, scope.scopeSet c s2 → s2 = s) →
        scope.ValidateScope (some c) = .ok ()
        ∧ scope.scopeTypeOf c = some s ∧ scope.scopesOf c = [s]) :=
  ⟨validateScope_none_set c,
   fun s1 s2 hne hs1 hs2 =>
     ⟨validateScope_two_set c s1 s2 hne hs1 hs2, fun s => mem_scopesOf c s⟩,
   fun s hs huniq => validateScope_one_set c s hs huniq⟩

theorem validateScope_trichotomy_witness :
    scope.ValidateScope (some {}) = .error .noScopeSpecified
    ∧ scope.ValidateScope (some { Org := ['a'], User := ['u'] })
        = .error (.multipleScopesSpecified (scope.scopesOf { Org := ['a'], User := ['u'] }))
    ∧ (scope.ValidateScope (some { Org := ['a'] }) = .ok ()
        ∧ scope.scopeTypeOf { Org := ['a'] } = some .org
        ∧ scope.scopesOf { Org := ['a'] } = [.org]) := by
  refine ⟨(validateScope_trichotomy {}).1 ?_,
    ((validateScope_trichotomy _).2.1 .org .user (by decide) (by decide) (by decide)).1,
    (validateScope_trichotomy _).2.2 .org (by decide) ?_⟩
  · intro s
    cases s <;> decide
  · intro s2 h
    cases s2 <;> first | rfl | exact absurd h (by decide)

instance exceptDecEq {e a : Type} [DecidableEq e] [DecidableEq a] : DecidableEq (Except e a) := fun x y =>
  match x, y with
  | .ok v, .ok w => if h : v = w then isTrue (by rw [h]) else isFalse (by simp [h])
  | .error v, .error w => if h : v = w then isTrue (by rw [h]) else isFalse (by simp [h])
  | .ok _, .error _ => isFalse (by simp)
  | .error _, .ok _ => isFalse (by simp)

theorem fetchLoop_spec (lp : Str → Int → Except Str (List model.PR)) (t : Int) :
    ∀ (rs : List Str) (a : List model.PR) (w : List (Str × Str)),
      rs.foldl (fun acc repoName =>
          match lp repoName t with
          | .error err => (acc.1, acc.2 ++ [(repoName, err)])
          | .ok prs => (acc.1 ++ prs, acc.2)) (a, w)
        = (a ++ rs.flatMap (fun r => match lp r t with | .ok prs => prs | .error _ => []),
           w ++ rs.filterMap (fun r => match lp r t with | .error e => some (r, e) | .ok _ => none))
  | [], a, w => by simp
  | r :: rs, a, w => by
    cases h : lp r t with
    | ok prs =>
      simp only [List.foldl_cons, h]
      rw [fetchLoop_spec lp t rs (a ++ prs) w]
      simp [h, List.append_assoc]
    | error e =>
      simp only [List.foldl_cons, h]
      rw [fetchLoop_spec lp t rs a (w ++ [(r, e)])]
      simp [h, List.append_assoc]

/-- C1: once the repositories are resolved and the time window parses, the
fetch loop never fails as a whole: its result is the successful
concatenation, in enumeration order, of the pull requests of exactly the
repositories whose listing succeeded, and a warning keyed by repository (with
the underlying error) is recorded for exactly the repositories whose listing
failed. -/
theorem fetch_partial_failure (cfg : config.Config)
    (listRepos : config.Config → Except Str (List gh.Repository))
    (listPRs : Str → Int → Except Str (List model.PR))
    (now : Int) (repoNames : List Str) (t : Int)
    (hR : scope.ResolveRepos (some cfg) listRepos = .ok repoNames)
    (hT : timeutil.ParseRelativeDuration cfg.Since now = .ok t) :
    service.Fetch cfg listRepos listPRs now
      = (.ok (repoNames.flatMap
            (fun r => match listPRs r t with | .ok prs => prs | .error _ => [])),
         repoNames.filterMap
            (fun r => match listPRs r t with | .error e => some (r, e) | .ok _ => none)) := by
  simp only [service.Fetch, hR, hT]
  rw [fetchLoop_spec listPRs t repoNames [] []]
  simp

/-- The repositories and client behavior of the C1 witness scenario: three
repositories, the second of which fails during pull-request listing. -/
def wRepo1 : Str := ['a', '/', '1']
def wRepo2 : Str := ['a', '/', '2']
def wRepo3 : Str := ['a', '/', '3']

def wListRepos : config.Config → Except Str (List gh.Repository) :=
  fun _ => .ok [{ FullName := some wRepo1 }, { FullName := some wRepo2 }, { FullName := some wRepo3 }]

def wListPRs : Str → Int → Except Str (List model.PR) :=
  fun r _ => if r = wRepo2 then .error ['x'] else .ok [{ Repository := r }]

theorem fetch_partial_failure_witness :
    service.Fetch { Org := ['o'], Since := ['-', '7', 'd'] } wListRepos wListPRs 0
      = (.ok [{ Repository := wRepo1 }, { Repository := wRepo3 }], [(wRepo2, ['x'])]) := by
  have h := fetch_partial_failure { Org := ['o'], Since := ['-', '7', 'd'] }
    wListRepos wListPRs 0 [wRepo1, wRepo2, wRepo3] (-604800) (by decide) (by decide)
  rw [h]
  decide

namespace gh

/-- The lifecycle state the `ListPRs` query requests (`State: "closed"`). -/
def closedState : Str := ['c', 'l', 'o', 's', 'e', 'd']

/-- Modelled from the claim wording: a pull request qualifies iff its merge
timestamp is present, strictly after the cutoff, and its lifecycle state is
closed.  Compared below against what `ListPRs` actually computes. -/
def prQualifies (cutoff : Int) (pr : GhPR) : Bool :=
  (match pr.MergedAt with
    | some m => decide (cutoff < m)
    | none => false)
  && decide (pr.State = some closedState)

end gh

theorem collectPRPages_ok (repo : Str) (since : Int) :
    ∀ (pages : List (List gh.GhPR)) (acc : List model.PR),
      gh.collectPRPages repo since (pages.map .ok) acc
        = .ok (acc ++ (pages.flatten).filterMap (fun pr =>
            match pr.MergedAt with
            | some m => if since < m then some (gh.convertToModelPR pr repo) else none
            | none => none))
  | [], acc => by simp [gh.collectPRPages]
  | p :: pages, acc => by
    simp only [List.map_cons, gh.collectPRPages]
    rw [collectPRPages_ok repo since pages]
    simp [List.filterMap_append, List.append_assoc]

theorem filterMap_eq_filter_qualifies (repo : Str) (since : Int) :
    ∀ (l : List gh.GhPR), (∀ pr ∈ l, pr.State = some gh.closedState) →
      l.filterMap (fun pr =>
          match pr.MergedAt with
          | some m => if since < m then some (gh.convertToModelPR pr repo) else none
          | none => none)
        = (l.filter (gh.prQualifies since)).map (gh.convertToModelPR · repo)
  | [], _ => by simp
  | pr :: l, h => by
    have hst : pr.State = some gh.closedState := h pr (by simp)
    have ih := filterMap_eq_filter_qualifies repo since l
      (fun q hq => h q (by simp [hq]))
    cases hm : pr.MergedAt with
    | none => simp [List.filterMap_cons, List.filter_cons, gh.prQualifies, hm, ih]
    | some m =>
      by_cases hlt : since < m <;>
        simp [List.filterMap_cons, List.filter_cons, gh.prQualifies, hm, hst, hlt, ih]

/-- C2: for a well-formed repository name, when every page of the upstream
response to the closed-state query succeeds, the output of `ListPRs` is
exactly the upstream pull requests that have a present merge timestamp
strictly after the cutoff and the closed lifecycle state (the hypothesis
that the upstream honors the requested `state=closed` filter supplies the
third conjunct), converted to the model type in listing order; all others —
absent merge timestamp, or merged at or before the cutoff — are excluded. -/
theorem listPRs_merge_filter (repo : Str) (since : Int)
    (pages : List (List gh.GhPR))
    (hrepo : (gh.splitOnChar '/' repo).length = 2)
    (hclosed : ∀ p ∈ pages, ∀ pr ∈ p, pr.State = some gh.closedState) :
    gh.ListPRs repo since (pages.map .ok)
      = .ok (((pages.flatten).filter (gh.prQualifies since)).map
          (gh.convertToModelPR · repo)) := by
  have hne : repo ≠ [] := by
    rintro rfl
    simp [gh.splitOnChar] at hrepo
  have hflat : ∀ pr ∈ pages.flatten, pr.State = some gh.closedState := by
    intro pr hpr
    rw [List.mem_flatten] at hpr
    obtain ⟨p, hp, hpr⟩ := hpr
    exact hclosed p hp pr hpr
  simp only [gh.ListPRs, if_neg hne, hrepo]
  rw [if_neg (by simp)]
  rw [collectPRPages_ok repo since pages []]
  rw [filterMap_eq_filter_qualifies repo since pages.flatten hflat]
  simp

/-- The three upstream pull requests of the C2 witness scenario: one merged
after the cutoff, one never merged, one merged before the cutoff. -/
def wPRIncluded : gh.GhPR :=
  { MergedAt := some 10, State := some gh.closedState, Title := some ['t'] }

def wPRUnmerged : gh.GhPR := { MergedAt := none, State := some gh.closedState }

def wPREarly : gh.GhPR := { MergedAt := some (-5), State := some gh.closedState }

theorem listPRs_merge_filter_witness :
    gh.ListPRs ['a', '/', 'r'] 0 [.ok [wPRIncluded, wPRUnmerged], .ok [wPREarly]]
      = .ok [gh.convertToModelPR wPRIncluded ['a', '/', 'r']] := by
  have h := listPRs_merge_filter ['a', '/', 'r'] 0 [[wPRIncluded, wPRUnmerged], [wPREarly]]
    (by decide) (by decide)
  rw [show ([[wPRIncluded, wPRUnmerged], [wPREarly]].map Except.ok
      : List (Except Str (List gh.GhPR)))
      = [.ok [wPRIncluded, wPRUnmerged], .ok [wPREarly]] from rfl] at h
  rw [h]
  decide

theorem alpha_not_digit (c : Char) (h : c.isAlpha = true) : c.isDigit = false := by
  simp only [Char.isAlpha, Char.isUpper, Char.isLower, Char.isDigit, Bool.or_eq_true,
    Bool.and_eq_true, decide_eq_true_eq, ge_iff_le, UInt32.le_def, BitVec.le_def] at h ⊢
  simp only [Bool.and_eq_false_iff, decide_eq_false_iff_not, UInt32.le_def, BitVec.le_def]
  norm_num at h ⊢
  omega

theorem split_digits_append (u : Str) (hu : ∀ c ∈ u, c.isAlpha = true) :
    ∀ (ds : Str), (∀ c ∈ ds, c.isDigit = true) →
      (ds ++ u).takeWhile Char.isDigit = ds ∧ (ds ++ u).dropWhile Char.isDigit = u
  | [], _ => by
    cases u with
    | nil => simp
    | cons c u2 =>
      have hc : c.isDigit = false := alpha_not_digit c (hu c (by simp))
      simp [List.takeWhile, List.dropWhile, hc]
  | d :: ds, hds => by
    have hd : d.isDigit = true := hds d (by simp)
    have ih := split_digits_append u hu ds (fun c hc => hds c (by simp [hc]))
    simp [List.takeWhile, List.dropWhile, hd, ih.1, ih.2]

theorem charsToNat_zeros : ∀ (zs : Str), (∀ z ∈ zs, z = '0') →
    timeutil.charsToNat zs = 0
  | [], _ => rfl
  | z :: zs, h => by
    have hz : z = '0' := h z (by simp)
    subst hz
    have ih := charsToNat_zeros zs (fun w hw => h w (by simp [hw]))
    simpa [timeutil.charsToNat] using ih

theorem parse_digits_unit (now : Int) (ds : Str) (hds : ∀ c ∈ ds, c.isDigit = true)
    (hne : ds ≠ []) (u : Str) (hu : ∀ c ∈ u, c.isAlpha = true) (hune : u ≠ []) :
    timeutil.ParseRelativeDuration ('-' :: ds ++ u) now
      = (if timeutil.charsToNat ds = 0 then .error (.nonPositive (timeutil.charsToNat ds))
         else timeutil.dispatchUnit (timeutil.toLowerL u) (timeutil.charsToNat ds) now) := by
  obtain ⟨ht, hd⟩ := split_digits_append u hu ds hds
  have hall : u.all Char.isAlpha = true := List.all_eq_true.mpr hu
  have hcond : ¬ (ds = [] ∨ u = [] ∨ ¬ u.all Char.isAlpha) := by
    simp [hne, hune, hall]
  have step : timeutil.ParseRelativeDuration ('-' :: ds ++ u) now
      = timeutil.parseBody (ds ++ u) now := rfl
  rw [step]
  simp only [timeutil.parseBody, ht, hd, if_neg hcond]

/-- C6: the relative-duration parser returns an error — never a time value —
on the empty expression (the dedicated empty-input error, a different error
from the format violations), on any expression not starting with '-', on a
zero magnitude, and on an unsupported unit. -/
theorem parseRelativeDuration_rejections (now : Int) :
    timeutil.ParseRelativeDuration [] now = .error .emptyInput
    ∧ (∀ c rest, c ≠ '-' →
        timeutil.ParseRelativeDuration (c :: rest) now = .error (.mustBeNegative (c :: rest)))
    ∧ (∀ zs u, zs ≠ [] → (∀ z ∈ zs, z = '0') → u ≠ [] → (∀ c ∈ u, c.isAlpha = true) →
        timeutil.ParseRelativeDuration ('-' :: zs ++ u) now = .error (.nonPositive 0))
    ∧ (∀ ds u, ds ≠ [] → (∀ c ∈ ds, c.isDigit = true) → u ≠ [] → (∀ c ∈ u, c.isAlpha = true) →
        timeutil.toLowerL u ∉ timeutil.dayAliases ++ timeutil.weekAliases ++ timeutil.monthAliases
          ++ timeutil.yearAliases ++ timeutil.hourAliases ++ timeutil.minuteAliases
          ++ timeutil.secondAliases →
        ∃ e, timeutil.ParseRelativeDuration ('-' :: ds ++ u) now = .error e)
    ∧ (∀ s, timeutil.ParseErr.emptyInput ≠ .invalidFormat s) := by
  refine ⟨rfl, ?_, ?_, ?_, ?_⟩
  · intro c rest hc
    simp [timeutil.ParseRelativeDuration, hc]
  · intro zs u hzs h0 hune hu
    have hds : ∀ c ∈ zs, c.isDigit = true := by
      intro c hc
      rw [h0 c hc]
      decide
    have hz := charsToNat_zeros zs h0
    rw [parse_digits_unit now zs hds hzs u hu hune, if_pos hz, hz]
  · intro ds u hne hds hune hu hmem
    rw [List.mem_append, List.mem_append, List.mem_append, List.mem_append,
      List.mem_append, List.mem_append] at hmem
    push_neg at hmem
    obtain ⟨⟨⟨⟨⟨⟨hm1, hm2⟩, hm3⟩, hm4⟩, hm5⟩, hm6⟩, hm7⟩ := hmem
    rw [parse_digits_unit now ds hds hne u hu hune]
    by_cases hz : timeutil.charsToNat ds = 0
    · exact ⟨.nonPositive (timeutil.charsToNat ds), by rw [if_pos hz]⟩
    · refine ⟨.unsupportedUnit (timeutil.toLowerL u), ?_⟩
      rw [if_neg hz]
      simp [timeutil.dispatchUnit, hm1, hm2, hm3, hm4, hm5, hm6, hm7]
  · intro s h
    exact timeutil.ParseErr.noConfusion h

theorem parseRelativeDuration_rejections_witness :
    timeutil.ParseRelativeDuration [] 0 = .error .emptyInput
    ∧ timeutil.ParseRelativeDuration ['7', 'd'] 0 = .error (.mustBeNegative ['7', 'd'])
    ∧ timeutil.ParseRelativeDuration ['-', '0', 'd'] 0 = .error (.nonPositive 0)
    ∧ (∃ e, timeutil.ParseRelativeDuration ['-', '3', 'x'] 0 = .error e)
    ∧ timeutil.ParseErr.emptyInput ≠ .invalidFormat [] := by
  refine ⟨(parseRelativeDuration_rejections 0).1,
    (parseRelativeDuration_rejections 0).2.1 '7' ['d'] (by decide),
    (parseRelativeDuration_rejections 0).2.2.1 ['0'] ['d'] (by decide) ?_ (by decide) ?_,
    (parseRelativeDuration_rejections 0).2.2.2.1 ['3'] ['x'] (by decide) ?_ (by decide) ?_ (by decide),
    (parseRelativeDuration_rejections 0).2.2.2.2 []⟩
  · intro z hz
    simp at hz
    exact hz
  · intro c hc
    simp at hc
    subst hc
    decide
  · intro c hc
    simp at hc
    subst hc
    decide
  · intro c hc
    simp at hc
    subst hc
    decide

theorem dispatch_day (unit : Str) (h : unit ∈ timeutil.dayAliases) (n : Nat) (now : Int) :
    timeutil.dispatchUnit unit n now = .ok (addDate now 0 0 (-(n : Int))) := by
  simp only [timeutil.dayAliases, List.mem_cons, List.not_mem_nil, or_false] at h
  rcases h with h | h | h <;> subst h <;> rfl

theorem dispatch_week (unit : Str) (h : unit ∈ timeutil.weekAliases) (n : Nat) (now : Int) :
    timeutil.dispatchUnit unit n now = .ok (addDate now 0 0 (-((n : Int) * 7))) := by
  simp only [timeutil.weekAliases, List.mem_cons, List.not_mem_nil, or_false] at h
  rcases h with h | h | h <;> subst h <;> rfl

theorem dispatch_month (unit : Str) (h : unit ∈ timeutil.monthAliases) (n : Nat) (now : Int) :
    timeutil.dispatchUnit unit n now = .ok (addDate now 0 (-(n : Int)) 0) := by
  simp only [timeutil.monthAliases, List.mem_cons, List.not_mem_nil, or_false] at h
  rcases h with h | h | h <;> subst h <;> rfl

theorem dispatch_year (unit : Str) (h : unit ∈ timeutil.yearAliases) (n : Nat) (now : Int) :
    timeutil.dispatchUnit unit n now = .ok (addDate now (-(n : Int)) 0 0) := by
  simp only [timeutil.yearAliases, List.mem_cons, List.not_mem_nil, or_false] at h
  rcases h with h | h | h | h <;> subst h <;> rfl

theorem dispatch_hour (unit : Str) (h : unit ∈ timeutil.hourAliases) (n : Nat) (now : Int) :
    timeutil.dispatchUnit unit n now = .ok (now - (n : Int) * 3600) := by
  simp only [timeutil.hourAliases, List.mem_cons, List.not_mem_nil, or_false] at h
  rcases h with h | h | h <;> subst h <;> rfl

theorem dispatch_minute (unit : Str) (h : unit ∈ timeutil.minuteAliases) (n : Nat) (now : Int) :
    timeutil.dispatchUnit unit n now = .ok (now - (n : Int) * 60) := by
  simp only [timeutil.minuteAliases, List.mem_cons, List.not_mem_nil, or_false] at h
  rcases h with h | h | h <;> subst h <;> rfl

theorem dispatch_second (unit : Str) (h : unit ∈ timeutil.secondAliases) (n : Nat) (now : Int) :
    timeutil.dispatchUnit unit n now = .ok (now - (n : Int)) := by
  simp only [timeutil.secondAliases, List.mem_cons, List.not_mem_nil, or_false] at h
  rcases h with h | h | h | h <;> subst h <;> rfl

theorem parse_ok_digits_unit (now : Int) (ds : Str) (hds : ∀ c ∈ ds, c.isDigit = true)
    (hpos : timeutil.charsToNat ds ≠ 0) (u : Str) (hu : ∀ c ∈ u, c.isAlpha = true)
    (hune : u ≠ []) :
    timeutil.ParseRelativeDuration ('-' :: ds ++ u) now
      = timeutil.dispatchUnit (timeutil.toLowerL u) (timeutil.charsToNat ds) now := by
  have hne : ds ≠ [] := by
    rintro rfl
    exact hpos rfl
  rw [parse_digits_unit now ds hds hne u hu hune, if_neg hpos]

/-- C7: for every digit string encoding a positive magnitude n and every
alias of a supported unit in any letter case, the parser treats all aliases
of the unit identically: every second/minute/hour alias yields fixed-duration
arithmetic (now minus n, 60n, 3600n seconds), every day/month/year alias
yields the calendar-aware `AddDate` subtraction, and every week alias yields
`AddDate` with a 7n-day offset — in particular `-<7n>d` produces exactly the
same cutoff as `-<n>w`. -/
theorem parse_unit_aliases (now : Int) (ds : Str) (hds : ∀ c ∈ ds, c.isDigit = true)
    (hpos : timeutil.charsToNat ds ≠ 0) (u : Str) (hu : ∀ c ∈ u, c.isAlpha = true) :
    (timeutil.toLowerL u ∈ timeutil.secondAliases →
        timeutil.ParseRelativeDuration ('-' :: ds ++ u) now
          = .ok (now - (timeutil.charsToNat ds : Int)))
    ∧ (timeutil.toLowerL u ∈ timeutil.minuteAliases →
        timeutil.ParseRelativeDuration ('-' :: ds ++ u) now
          = .ok (now - (timeutil.charsToNat ds : Int) * 60))
    ∧ (timeutil.toLowerL u ∈ timeutil.hourAliases →
        timeutil.ParseRelativeDuration ('-' :: ds ++ u) now
          = .ok (now - (timeutil.charsToNat ds : Int) * 3600))
    ∧ (timeutil.toLowerL u ∈ timeutil.dayAliases →
        timeutil.ParseRelativeDuration ('-' :: ds ++ u) now
          = .ok (addDate now 0 0 (-(timeutil.charsToNat ds : Int))))
    ∧ (timeutil.toLowerL u ∈ timeutil.weekAliases →
        timeutil.ParseRelativeDuration ('-' :: ds ++ u) now
          = .ok (addDate now 0 0 (-((timeutil.charsToNat ds : Int) * 7)))
        ∧ (∀ ds7, (∀ c ∈ ds7, c.isDigit = true) →
            timeutil.charsToNat ds7 = 7 * timeutil.charsToNat ds →
            timeutil.ParseRelativeDuration ('-' :: ds7 ++ ['d']) now
              = timeutil.ParseRelativeDuration ('-' :: ds ++ u) now))
    ∧ (timeutil.toLowerL u ∈ timeutil.monthAliases →
        timeutil.ParseRelativeDuration ('-' :: ds ++ u) now
          = .ok (addDate now 0 (-(timeutil.charsToNat ds : Int)) 0))
    ∧ (timeutil.toLowerL u ∈ timeutil.yearAliases →
        timeutil.ParseRelativeDuration ('-' :: ds ++ u) now
          = .ok (addDate now (-(timeutil.charsToNat ds : Int)) 0 0)) := by
  have hune : ∀ a, timeutil.toLowerL u ∈ a → a ∈ [timeutil.secondAliases, timeutil.minuteAliases,
      timeutil.hourAliases, timeutil.dayAliases, timeutil.weekAliases, timeutil.monthAliases,
      timeutil.yearAliases] → u ≠ [] := by
    rintro a hm ha rfl
    fin_cases ha <;> exact absurd hm (by decide)
  refine ⟨?_, ?_, ?_, ?_, ?_, ?_, ?_⟩
  · intro hmem
    rw [parse_ok_digits_unit now ds hds hpos u hu (hune _ hmem (by simp)),
      dispatch_second _ hmem]
  · intro hmem
    rw [parse_ok_digits_unit now ds hds hpos u hu (hune _ hmem (by simp)),
      dispatch_minute _ hmem]
  · intro hmem
    rw [parse_ok_digits_unit now ds hds hpos u hu (hune _ hmem (by simp)),
      dispatch_hour _ hmem]
  · intro hmem
    rw [parse_ok_digits_unit now ds hds hpos u hu (hune _ hmem (by simp)),
      dispatch_day _ hmem]
  · intro hmem
    have hweek : timeutil.ParseRelativeDuration ('-' :: ds ++ u) now
        = .ok (addDate now 0 0 (-((timeutil.charsToNat ds : Int) * 7))) := by
      rw [parse_ok_digits_unit now ds hds hpos u hu (hune _ hmem (by simp)),
        dispatch_week _ hmem]
    refine ⟨hweek, ?_⟩
    intro ds7 hds7 h7
    have hpos7 : timeutil.charsToNat ds7 ≠ 0 := by
      rw [h7]
      exact fun hc => hpos (by omega)
    rw [parse_ok_digits_unit now ds7 hds7 hpos7 ['d'] (by decide) (by decide),
      dispatch_day (timeutil.toLowerL ['d']) (by decide) (timeutil.charsToNat ds7) now,
      hweek, h7]
    congr 2
    push_cast
    ring
  · intro hmem
    rw [parse_ok_digits_unit now ds hds hpos u hu (hune _ hmem (by simp)),
      dispatch_month _ hmem]
  · intro hmem
    rw [parse_ok_digits_unit now ds hds hpos u hu (hune _ hmem (by simp)),
      dispatch_year _ hmem]

theorem parse_unit_aliases_witness :
    timeutil.ParseRelativeDuration ['-', '1', 'y', 'r'] 0 = .ok (addDate 0 (-1) 0 0)
    ∧ timeutil.ParseRelativeDuration ['-', '1', 'Y', 'E', 'A', 'R'] 0 = .ok (addDate 0 (-1) 0 0)
    ∧ timeutil.ParseRelativeDuration ['-', '1', 'y'] 0 = .ok (addDate 0 (-1) 0 0)
    ∧ timeutil.ParseRelativeDuration ['-', '1', '4', 'd'] 0
        = timeutil.ParseRelativeDuration ['-', '2', 'w'] 0 := by
  refine ⟨?_, ?_, ?_, ?_⟩
  · have h := (parse_unit_aliases 0 ['1'] ?_ (by decide) ['y', 'r'] ?_).2.2.2.2.2.2 (by decide)
    · exact h
    · intro c hc
      simp at hc
      subst hc
      decide
    · intro c hc
      simp at hc
      rcases hc with rfl | rfl <;> decide
  · have h := (parse_unit_aliases 0 ['1'] ?_ (by decide) ['Y', 'E', 'A', 'R'] ?_).2.2.2.2.2.2 (by decide)
    · exact h
    · intro c hc
      simp at hc
      subst hc
      decide
    · intro c hc
      simp at hc
      rcases hc with rfl | rfl | rfl | rfl <;> decide
  · have h := (parse_unit_aliases 0 ['1'] ?_ (by decide) ['y'] ?_).2.2.2.2.2.2 (by decide)
    · exact h
    · intro c hc
      simp at hc
      subst hc
      decide
    · intro c hc
      simp at hc
      subst hc
      decide
  · have h := ((parse_unit_aliases 0 ['2'] ?_ (by decide) ['w'] ?_).2.2.2.2.1 (by decide)).2
      ['1', '4'] ?_ (by decide)
    · exact h
    · intro c hc
      simp at hc
      subst hc
      decide
    · intro c hc
      simp at hc
      subst hc
      decide
    · intro c hc
      simp at hc
      rcases hc with rfl | rfl <;> decide
